import Mathlib

/-!
# mv-realty-api: the in-memory condo / listing store and its HTTP handlers

A shallow embedding of `main.go`.  The two package-level slices `condos` and
`listings` become the fields of an explicit `Store` that every handler takes and
returns.  A handler is a function from the store and the already-extracted request
data (the result of `json.Decode` for a body, the result of `strconv.Atoi` or of the
`mux.Vars` lookup for a path segment) to the new store and the response written.

Go `int` identifiers are only ever compared, never computed with, so they are `Int`.
A response is its status code, its `Content-Type` header and a structured body: the
value handed to `json.Encoder.Encode`, or the text written by `http.Error`.
-/

namespace MvRealty

/-! ## Data model (main.go, lines 18-47) -/

/-- Room type of a condo (`type TypeOfRoom struct`). -/
structure TypeOfRoom where
  TypeId : String
  TypeName : String
  Description : String
deriving DecidableEq, Repr

/-- Condo record (`type Condo struct`). -/
structure Condo where
  CondoId : Int
  CondoName : String
  Address : String
  City : String
  Facilities : String
  Description : String
  Types : List TypeOfRoom
deriving DecidableEq, Repr

/-- Listing record (`type Listing struct`). -/
structure Listing where
  ListingId : Int
  CondoId : Int
  TypeId : String
  Price : Int
  Description : String
  Status : String
deriving DecidableEq, Repr

/-- The package-level variables `condos` and `listings`.  Both are non-nil slices at all
times: `init` assigns slice literals and the handlers only re-slice and append. -/
structure Store where
  condos : List Condo
  listings : List Listing
deriving DecidableEq, Repr

/-! ## Responses -/

/-- What a handler wrote to the `http.ResponseWriter`. -/
inductive Body where
  /-- Nothing was written. -/
  | empty
  /-- Text written by `http.Error` (the message followed by a newline). -/
  | text (msg : String)
  /-- JSON `null`: the encoding of a nil slice. -/
  | jsonNull
  /-- JSON object for one listing. -/
  | listing (l : Listing)
  /-- JSON array of listings (a non-nil slice). -/
  | listings (ls : List Listing)
  /-- JSON object for one condo. -/
  | condo (c : Condo)
  /-- JSON array of condos (a non-nil slice). -/
  | condos (cs : List Condo)
deriving DecidableEq, Repr

/-- Status code, `Content-Type` header and body of a response. -/
structure Response where
  status : Nat
  contentType : String
  body : Body
deriving DecidableEq, Repr

/-- Response of `http.Error(w, msg, code)`: the content type is reset to plain text, the
status is `code` and the body is `msg` followed by a newline. -/
def httpError (msg : String) (code : Nat) : Response :=
  { status := code, contentType := "text/plain; charset=utf-8", body := Body.text (msg ++ "\n") }

/-- Response of a handler that set `Content-Type: application/json`, answered with
status `code` (200 when `WriteHeader` is never called) and encoded `body`. -/
def jsonResponse (code : Nat) (body : Body) : Response :=
  { status := code, contentType := "application/json", body := body }

/-! ## Go slices that may be nil

`var condoListings []Listing` declares a nil slice; `append` on it yields a non-nil
slice.  A nil slice is `none`. -/

/-- Go `append(s, x)` for a slice that may be nil. -/
def goAppend {α : Type} (s : Option (List α)) (x : α) : Option (List α) :=
  some (s.getD [] ++ [x])

/-- Go `len(s)` for a slice that may be nil. -/
def goLen {α : Type} (s : Option (List α)) : Nat :=
  (s.getD []).length

/-- Result of `json.NewEncoder(w).Encode(s)` for a listing slice that may be nil. -/
def encodeListings (s : Option (List Listing)) : Body :=
  match s with
  | none => Body.jsonNull
  | some ls => Body.listings ls

/-- Loop `for _, listing := range listings { if p(listing) { acc = append(acc, listing) } }`
shared by the filtering handlers; `acc` is the slice built so far. -/
def collectListings (p : Listing → Bool) : List Listing → Option (List Listing) → Option (List Listing)
  | [], acc => acc
  | listing :: rest, acc => collectListings p rest (if p listing then goAppend acc listing else acc)

/-! ## Request gate (lines 49-58) -/

/-- Handler returned by `apiKeyMiddleware(next)`.  `apiKey` is the package variable set from
the environment, `key` the value of `r.Header.Get("X-API-Key")` (empty when the header is
absent) and `next` the wrapped handler applied to the request. -/
def apiKeyMiddleware (apiKey : String) (next : Store → Store × Response) (key : String)
    (s : Store) : Store × Response :=
  if key ≠ apiKey then (s, httpError "Forbidden" 403)
  else next s

/-! ## Read handlers -/

/-- Handler `getCondos` (lines 60-63). -/
def getCondos (s : Store) : Store × Response :=
  (s, jsonResponse 200 (Body.condos s.condos))

/-- Handler `getListings` (lines 65-68). -/
def getListings (s : Store) : Store × Response :=
  (s, jsonResponse 200 (Body.listings s.listings))

/-- Handler `getListingsByCondoId` (lines 70-93).  `condoIdParam` is the result of
`strconv.Atoi(params["condoId"])`, `none` when it returns an error. -/
def getListingsByCondoId (s : Store) (condoIdParam : Option Int) : Store × Response :=
  match condoIdParam with
  | none => (s, httpError "Invalid Condo ID" 400)
  | some condoId =>
    let condoListings := collectListings (fun listing => decide (listing.CondoId = condoId)) s.listings none
    if goLen condoListings = 0 then
      (s, httpError "No listings found for the specified Condo ID" 404)
    else
      (s, jsonResponse 200 (encodeListings condoListings))

/-- Handler `getListingsByStatus` (lines 95-111).  `statusParam` is the result of the
lookup `params["status"]`, `none` when the key is absent.  The slice is encoded whatever its
length, so a nil slice goes out as JSON `null`. -/
def getListingsByStatus (s : Store) (statusParam : Option String) : Store × Response :=
  match statusParam with
  | none => (s, httpError "Invalid status parameter" 400)
  | some status =>
    let condoListings := collectListings (fun listing => decide (listing.Status = status)) s.listings none
    (s, jsonResponse 200 (encodeListings condoListings))

/-- Loop of lines 128-133: the listing that is encoded before the `break`, `none` when the
range ends without a match. -/
def findListingDetail (condoId listingId : Int) : List Listing → Option Listing
  | [] => none
  | listing :: rest =>
    if listing.CondoId = condoId ∧ listing.ListingId = listingId then some listing
    else findListingDetail condoId listingId rest

/-- Handler `getListingsDetailFromListingsByCondoId` (lines 113-134).  The parameters are
the results of `strconv.Atoi` on the two path segments.  When no listing matches nothing is
written, so the server sends status 200 with an empty body. -/
def getListingsDetailFromListingsByCondoId (s : Store) (condoIdParam listingIdParam : Option Int) :
    Store × Response :=
  match condoIdParam with
  | none => (s, httpError "Invalid Condo ID" 400)
  | some condoId =>
    match listingIdParam with
    | none => (s, httpError "Invalid Listing ID" 400)
    | some listingId =>
      match findListingDetail condoId listingId s.listings with
      | some listing => (s, jsonResponse 200 (Body.listing listing))
      | none => (s, jsonResponse 200 Body.empty)

/-- Handler `getListingsByCondoIdAndStatus` (lines 136-164). -/
def getListingsByCondoIdAndStatus (s : Store) (condoIdParam : Option Int)
    (statusParam : Option String) : Store × Response :=
  match condoIdParam with
  | none => (s, httpError "Invalid Condo ID" 400)
  | some condoId =>
    match statusParam with
    | none => (s, httpError "Invalid status parameter" 400)
    | some status =>
      let condoListings := collectListings
        (fun listing => decide (listing.CondoId = condoId ∧ listing.Status = status)) s.listings none
      if goLen condoListings = 0 then
        (s, httpError "No listings found for the specified Status in Condo Listings." 404)
      else
        (s, jsonResponse 200 (encodeListings condoListings))

/-- Handler `getListingsByCondoIdAndType` (lines 166-194). -/
def getListingsByCondoIdAndType (s : Store) (condoIdParam : Option Int)
    (typeParam : Option String) : Store × Response :=
  match condoIdParam with
  | none => (s, httpError "Invalid Condo ID" 400)
  | some condoId =>
    match typeParam with
    | none => (s, httpError "Invalid type parameter" 400)
    | some typeId =>
      let condoListings := collectListings
        (fun listing => decide (listing.CondoId = condoId ∧ listing.TypeId = typeId)) s.listings none
      if goLen condoListings = 0 then
        (s, httpError "No listings found for the specified Type in Condo Listings." 404)
      else
        (s, jsonResponse 200 (encodeListings condoListings))

/-! ## createListing (lines 196-245) -/

/-- Loop of lines 206-212: `validCondo` points at a copy of the first condo whose
`CondoId` equals the wanted one, and stays nil (`none`) when there is none. -/
def findValidCondo (condoId : Int) : List Condo → Option Condo
  | [] => none
  | condo :: rest => if condo.CondoId = condoId then some condo else findValidCondo condoId rest

/-- Loop of lines 220-226: `validTypeId` after scanning `validCondo.Types`. -/
def validTypeId (typeId : String) : List TypeOfRoom → Bool
  | [] => false
  | roomType :: rest => if roomType.TypeId = typeId then true else validTypeId typeId rest

/-- Loop of lines 234-239: whether the scan meets a listing with the given `ListingId`
(and so returns with the duplicate error). -/
def listingIdExists (listingId : Int) : List Listing → Bool
  | [] => false
  | listing :: rest => if listing.ListingId = listingId then true else listingIdExists listingId rest

/-- Handler `createListing`.  `payload` is the result of decoding the request body into a
`Listing`, `none` when `Decode` returns an error. -/
def createListing (s : Store) (payload : Option Listing) : Store × Response :=
  match payload with
  | none => (s, httpError "Invalid request payload" 400)
  | some newListing =>
    match findValidCondo newListing.CondoId s.condos with
    | none => (s, httpError "Invalid Condo ID" 400)
    | some validCondo =>
      if validTypeId newListing.TypeId validCondo.Types = false then
        (s, httpError "Invalid Type ID" 400)
      else if listingIdExists newListing.ListingId s.listings = true then
        (s, httpError "Listing ID already exists" 400)
      else
        ({ s with listings := s.listings ++ [newListing] }, jsonResponse 201 (Body.listing newListing))

/-! ## deleteListing (lines 247-263) -/

/-- Loop of lines 256-261: the `index` at which the scan meets `listingIdToDelete` and
breaks, `none` when the range ends without a match. -/
def listingIndex (listingIdToDelete : Int) : List Listing → Option Nat
  | [] => none
  | item :: rest =>
    if item.ListingId = listingIdToDelete then some 0
    else (listingIndex listingIdToDelete rest).map (fun index => index + 1)

/-- Handler `deleteListing`.  `idParam` is the result of `strconv.Atoi(params["id"])`.
`append(listings[:index], listings[index+1:]...)` is the elements before `index` followed
by the elements after it. -/
def deleteListing (s : Store) (idParam : Option Int) : Store × Response :=
  match idParam with
  | none => (s, httpError "Invalid Condo ID" 400)
  | some listingIdToDelete =>
    let listings :=
      match listingIndex listingIdToDelete s.listings with
      | some index => s.listings.take index ++ s.listings.drop (index + 1)
      | none => s.listings
    ({ s with listings := listings }, jsonResponse 200 (Body.listings listings))

/-! ## createCondo (lines 265-284) -/

/-- Loop of lines 274-279: whether the scan meets a condo sharing the `CondoId` or the
`CondoName` of the new one (and so returns with the duplicate error). -/
def condoExists (newCondo : Condo) : List Condo → Bool
  | [] => false
  | condo :: rest =>
    if condo.CondoId = newCondo.CondoId ∨ condo.CondoName = newCondo.CondoName then true
    else condoExists newCondo rest

/-- Handler `createCondo`.  `payload` is the result of decoding the request body into a
`Condo`, `none` when `Decode` returns an error. -/
def createCondo (s : Store) (payload : Option Condo) : Store × Response :=
  match payload with
  | none => (s, httpError "Invalid request payload" 400)
  | some newCondo =>
    if condoExists newCondo s.condos = true then
      (s, httpError "Condo already exists" 400)
    else
      ({ s with condos := s.condos ++ [newCondo] }, jsonResponse 201 (Body.condo newCondo))

/-! ## deleteCondo (lines 286-302) -/

/-- Loop of lines 295-300: the `index` at which the scan meets `condoIdToDelete` and
breaks, `none` when the range ends without a match. -/
def condoIndex (condoIdToDelete : Int) : List Condo → Option Nat
  | [] => none
  | item :: rest =>
    if item.CondoId = condoIdToDelete then some 0
    else (condoIndex condoIdToDelete rest).map (fun index => index + 1)

/-- Handler `deleteCondo`.  `condoIdParam` is the result of
`strconv.Atoi(params["condoId"])`. -/
def deleteCondo (s : Store) (condoIdParam : Option Int) : Store × Response :=
  match condoIdParam with
  | none => (s, httpError "Invalid Condo ID" 400)
  | some condoIdToDelete =>
    let condos :=
      match condoIndex condoIdToDelete s.condos with
      | some index => s.condos.take index ++ s.condos.drop (index + 1)
      | none => s.condos
    ({ s with condos := condos }, jsonResponse 200 (Body.condos condos))

/-! ## Seed data (`init`, lines 304-367) -/

/-- First element of the `condos` literal of `init`. -/
def sunsetPlaza : Condo :=
  { CondoId := 1, CondoName := "Sunset Plaza", Address := "123 Sunshine Blvd",
    City := "Sunnyville", Facilities := "Pool, Gym, Parking",
    Description := "A luxurious condo with all amenities.",
    Types := [ { TypeId := "SP1", TypeName := "1 Bedroom", Description := "One bedroom condo." },
               { TypeId := "SP2", TypeName := "2 Bedroom", Description := "Two bedroom condo." } ] }

/-- Second element of the `condos` literal of `init`. -/
def oceanBreeze : Condo :=
  { CondoId := 2, CondoName := "Ocean Breeze", Address := "456 Ocean View",
    City := "Beach City", Facilities := "Pool, Sauna, Parking",
    Description := "Condo with stunning ocean views.",
    Types := [ { TypeId := "OB1-ov", TypeName := "1 Bedroom",
                 Description := "One bedroom condo with ocean view." },
               { TypeId := "OB2-ov", TypeName := "2 Bedroom",
                 Description := "Two bedroom condo with ocean view." } ] }

/-- Value of `condos` after `init`. -/
def seedCondos : List Condo :=
  [sunsetPlaza, oceanBreeze]

/-- Value of `listings` after `init`. -/
def seedListings : List Listing :=
  [ { ListingId := 1, CondoId := 1, TypeId := "SP1", Price := 300000,
      Description := "Beautiful one bedroom condo in Sunset Plaza.", Status := "available-for-sale" },
    { ListingId := 2, CondoId := 1, TypeId := "SP2", Price := 450000,
      Description := "Spacious two bedroom condo in Sunset Plaza.", Status := "available-for-rent" },
    { ListingId := 3, CondoId := 2, TypeId := "OB1-ov", Price := 350000,
      Description := "Cozy one bedroom condo in Ocean Breeze.", Status := "available-for-sale" },
    { ListingId := 4, CondoId := 2, TypeId := "OB2-ov", Price := 500000,
      Description := "Luxurious two bedroom condo in Ocean Breeze.", Status := "available-for-rent" } ]

/-- The store when the server starts. -/
def seedStore : Store :=
  { condos := seedCondos, listings := seedListings }

/-! ## Sample requests -/

/-- Listing payload of the scenario in the specification: listing 5 under condo 1, type SP1. -/
def listingFive : Listing :=
  { ListingId := 5, CondoId := 1, TypeId := "SP1", Price := 1, Description := "", Status := "x" }

/-- Listing payload naming condo 9, which the seed store does not have; its listingId 1 is
taken and its typeId belongs to condo 1. -/
def listingUnknownCondo : Listing :=
  { ListingId := 1, CondoId := 9, TypeId := "SP1", Price := 1, Description := "", Status := "x" }

/-- Listing payload naming condo 1 with a typeId of condo 2; its listingId 1 is taken. -/
def listingUnknownType : Listing :=
  { ListingId := 1, CondoId := 1, TypeId := "OB1-ov", Price := 1, Description := "", Status := "x" }

/-- Listing payload naming condo 2 and its type OB2-ov, with the taken listingId 3. -/
def listingDuplicateId : Listing :=
  { ListingId := 3, CondoId := 2, TypeId := "OB2-ov", Price := 7, Description := "", Status := "x" }

/-- Condo payload with an id and a name the seed store does not use. -/
def condoHarbourView : Condo :=
  { CondoId := 3, CondoName := "Harbour View", Address := "789 Pier Road", City := "Port Town",
    Facilities := "Gym", Description := "",
    Types := [ { TypeId := "HV1", TypeName := "Studio", Description := "" } ] }

/-- Condo payload with a fresh id but the name of seed condo 2. -/
def condoSameName : Condo :=
  { CondoId := 7, CondoName := "Ocean Breeze", Address := "", City := "", Facilities := "",
    Description := "", Types := [] }

/-- Condo payload with an unused id and name whose two room types share the typeId "TW1". -/
def condoTwinTypes : Condo :=
  { CondoId := 4, CondoName := "Twin Towers", Address := "", City := "", Facilities := "",
    Description := "",
    Types := [ { TypeId := "TW1", TypeName := "Studio", Description := "" },
               { TypeId := "TW1", TypeName := "Loft", Description := "" } ] }

/-- Store without condos whose two listings share listingId 5. -/
def storeRepeatedListing : Store :=
  { condos := [], listings := [listingFive, listingFive] }

/-- Wrapped handler used to exercise the request gate: `createListing` on the payload of
the scenario. -/
def createListingFive (s : Store) : Store × Response :=
  createListing s (some listingFive)

/-! ## Sequences of mutating requests

The four routes of `main` that change the store (lines 398-405), each with the data its
handler extracts from the request. -/

/-- Request to one of the mutating routes. -/
inductive Request where
  /-- Route `POST /condos` with the decoded body. -/
  | createCondo (payload : Option Condo)
  /-- Route `DELETE /condos/{condoId}` with the parsed path segment. -/
  | deleteCondo (condoIdParam : Option Int)
  /-- Route `POST /listings` with the decoded body. -/
  | createListing (payload : Option Listing)
  /-- Route `DELETE /listings/{id}` with the parsed path segment. -/
  | deleteListing (idParam : Option Int)
deriving DecidableEq, Repr

/-- Dispatch of a request to its handler. -/
def handle (s : Store) : Request → Store × Response
  | Request.createCondo payload => createCondo s payload
  | Request.deleteCondo condoIdParam => deleteCondo s condoIdParam
  | Request.createListing payload => createListing s payload
  | Request.deleteListing idParam => deleteListing s idParam

/-- Store after serving the requests one after the other. -/
def run (s : Store) : List Request → Store
  | [] => s
  | r :: rest => run (handle s r).1 rest

/-- Whether the request goes to `deleteCondo`. -/
def isDeleteCondo : Request → Bool
  | Request.deleteCondo _ => true
  | _ => false

/-- Request sequence that adds a condo, adds listing 5 twice (the second attempt is
refused), deletes condo 1 and deletes listing 2. -/
def sampleRequests : List Request :=
  [Request.createCondo (some condoHarbourView), Request.createListing (some listingFive),
   Request.createListing (some listingFive), Request.deleteCondo (some 1),
   Request.deleteListing (some 2)]

/-- Condo payload with an unused id and name and two room types with distinct typeIds. -/
def condoLakeside : Condo :=
  { CondoId := 5, CondoName := "Lakeside", Address := "1 Shore Lane", City := "Laketown",
    Facilities := "Sauna", Description := "",
    Types := [ { TypeId := "LS1", TypeName := "1 Bedroom", Description := "" },
               { TypeId := "LS2", TypeName := "2 Bedroom", Description := "" } ] }

/-- Condo payload whose two room types share the typeId "TW1" and whose condoId 1 is that
of a seed condo, so `createCondo` refuses it. -/
def condoTwinTakenId : Condo :=
  { CondoId := 1, CondoName := "Twin Court", Address := "", City := "", Facilities := "",
    Description := "",
    Types := [ { TypeId := "TW1", TypeName := "Studio", Description := "" },
               { TypeId := "TW1", TypeName := "Loft", Description := "" } ] }

/-- Request sequence with an accepted condo payload, a refused condo payload whose typeIds
repeat, and the deletion of listing 2. -/
def requestsWithRefusedTwin : List Request :=
  [Request.createCondo (some condoLakeside), Request.createCondo (some condoTwinTakenId),
   Request.deleteListing (some 2)]

/-- Request sequence without `deleteCondo`: a new condo, a listing under it that names a
type it lacks (refused), listing 5 and the deletion of listing 3. -/
def requestsKeepingCondos : List Request :=
  [Request.createCondo (some condoHarbourView),
   Request.createListing (some { listingFive with CondoId := 3 }),
   Request.createListing (some listingFive), Request.deleteListing (some 3)]

/-! ## Specification vocabulary -/

/-- Condo `c` is the first condo of `condos` whose `CondoId` is `condoId`: it sits after
a stretch `pre` of condos with other ids. -/
def FirstCondoWithId (condos : List Condo) (condoId : Int) (c : Condo) : Prop :=
  ∃ pre post, condos = pre ++ c :: post ∧ (∀ d ∈ pre, d.CondoId ≠ condoId) ∧ c.CondoId = condoId

/-- No two condos share a `CondoId`, no two condos share a `CondoName` and no two listings
share a `ListingId`. -/
def UniqueIds (s : Store) : Prop :=
  s.condos.Pairwise (fun a b => a.CondoId ≠ b.CondoId) ∧
  s.condos.Pairwise (fun a b => a.CondoName ≠ b.CondoName) ∧
  s.listings.Pairwise (fun a b => a.ListingId ≠ b.ListingId)

/-- The room types of condo `c` have pairwise distinct `TypeId`s. -/
def TypesDistinct (c : Condo) : Prop :=
  c.Types.Pairwise (fun a b => a.TypeId ≠ b.TypeId)

/-- Every listing names a condo of the store and a room type of that condo. -/
def RefIntegrity (s : Store) : Prop :=
  ∀ l ∈ s.listings, ∃ c ∈ s.condos, c.CondoId = l.CondoId ∧ ∃ t ∈ c.Types, t.TypeId = l.TypeId


/-! ## Lemmas about the scanning loops -/

theorem findValidCondo_eq_none_iff (condoId : Int) (condos : List Condo) :
    findValidCondo condoId condos = none ↔ ∀ c ∈ condos, c.CondoId ≠ condoId := by
  induction condos with
  | nil => simp [findValidCondo]
  | cons condo rest ih =>
    by_cases h : condo.CondoId = condoId
    · simp [findValidCondo, h]
    · simp [findValidCondo, h, ih]

theorem findValidCondo_eq_some_iff (condoId : Int) (condos : List Condo) (c : Condo) :
    findValidCondo condoId condos = some c ↔ FirstCondoWithId condos condoId c := by
  induction condos with
  | nil =>
    simp [findValidCondo, FirstCondoWithId]
  | cons condo rest ih =>
    by_cases h : condo.CondoId = condoId
    · simp only [findValidCondo, h, if_true, Option.some.injEq]
      constructor
      · intro hc
        exact ⟨[], rest, by simp [hc], by simp, hc ▸ h⟩
      · rintro ⟨pre, post, hsplit, hpre, _⟩
        cases pre with
        | nil => simp at hsplit; exact hsplit.1
        | cons d pre2 =>
          simp at hsplit
          exact absurd h (hsplit.1 ▸ hpre d (by simp))
    · simp only [findValidCondo, h, if_false, ih]
      constructor
      · rintro ⟨pre, post, hsplit, hpre, hc⟩
        refine ⟨condo :: pre, post, by simp [hsplit], ?_, hc⟩
        intro d hd
        rcases List.mem_cons.mp hd with hd | hd
        · exact hd ▸ h
        · exact hpre d hd
      · rintro ⟨pre, post, hsplit, hpre, hc⟩
        cases pre with
        | nil =>
          simp at hsplit
          exact absurd (hsplit.1 ▸ hc) h
        | cons d pre2 =>
          simp at hsplit
          exact ⟨pre2, post, hsplit.2, fun e he => hpre e (by simp [he]), hc⟩

theorem validTypeId_eq_true_iff (typeId : String) (types : List TypeOfRoom) :
    validTypeId typeId types = true ↔ ∃ t ∈ types, t.TypeId = typeId := by
  induction types with
  | nil => simp [validTypeId]
  | cons roomType rest ih =>
    by_cases h : roomType.TypeId = typeId
    · simp [validTypeId, h]
    · simp [validTypeId, h, ih]

theorem listingIdExists_eq_true_iff (listingId : Int) (listings : List Listing) :
    listingIdExists listingId listings = true ↔ ∃ l ∈ listings, l.ListingId = listingId := by
  induction listings with
  | nil => simp [listingIdExists]
  | cons listing rest ih =>
    by_cases h : listing.ListingId = listingId
    · simp [listingIdExists, h]
    · simp [listingIdExists, h, ih]

theorem firstCondoWithId_unique {condos : List Condo} {condoId : Int} {c d : Condo}
    (hc : FirstCondoWithId condos condoId c) (hd : FirstCondoWithId condos condoId d) : c = d := by
  have h1 := (findValidCondo_eq_some_iff condoId condos c).mpr hc
  have h2 := (findValidCondo_eq_some_iff condoId condos d).mpr hd
  rw [h1] at h2
  exact Option.some.inj h2


/-! ## createListing -/

theorem createListing_of_no_condo (s : Store) (p : Listing)
    (hfind : findValidCondo p.CondoId s.condos = none) :
    createListing s (some p) = (s, httpError "Invalid Condo ID" 400) := by
  simp only [createListing, hfind]

theorem createListing_of_bad_type (s : Store) (p : Listing) (c : Condo)
    (hfind : findValidCondo p.CondoId s.condos = some c)
    (hty : validTypeId p.TypeId c.Types = false) :
    createListing s (some p) = (s, httpError "Invalid Type ID" 400) := by
  simp only [createListing, hfind, hty, if_true]

theorem createListing_of_duplicate (s : Store) (p : Listing) (c : Condo)
    (hfind : findValidCondo p.CondoId s.condos = some c)
    (hty : validTypeId p.TypeId c.Types = true)
    (hdup : listingIdExists p.ListingId s.listings = true) :
    createListing s (some p) = (s, httpError "Listing ID already exists" 400) := by
  simp [createListing, hfind, hty, hdup]

theorem createListing_of_valid (s : Store) (p : Listing) (c : Condo)
    (hfind : findValidCondo p.CondoId s.condos = some c)
    (hty : validTypeId p.TypeId c.Types = true)
    (hdup : listingIdExists p.ListingId s.listings = false) :
    createListing s (some p) =
      ({ s with listings := s.listings ++ [p] }, jsonResponse 201 (Body.listing p)) := by
  simp [createListing, hfind, hty, hdup]

/-- C1: `createListing` answers 201 exactly when (a) some condo has the payload's condoId,
(b) the first such condo has a type with the payload's typeId and (c) no stored listing has
the payload's listingId; and when it answers 201 the listings are the old ones followed by
the payload, the body is the payload and the condos are untouched. -/
theorem createListing_created_iff (s : Store) (p : Listing) :
    ((createListing s (some p)).2.status = 201 ↔
      ((∃ c ∈ s.condos, c.CondoId = p.CondoId) ∧
       (∀ c, FirstCondoWithId s.condos p.CondoId c → ∃ t ∈ c.Types, t.TypeId = p.TypeId) ∧
       (∀ l ∈ s.listings, l.ListingId ≠ p.ListingId))) ∧
    ((createListing s (some p)).2.status = 201 →
      (createListing s (some p)).1.listings = s.listings ++ [p] ∧
      (createListing s (some p)).2.body = Body.listing p ∧
      (createListing s (some p)).1.condos = s.condos) := by
  cases hfind : findValidCondo p.CondoId s.condos with
  | none =>
    have hnone := (findValidCondo_eq_none_iff p.CondoId s.condos).mp hfind
    rw [createListing_of_no_condo s p hfind]
    refine ⟨⟨fun h => ?_, fun h => ?_⟩, fun h => ?_⟩
    · simp [httpError] at h
    · obtain ⟨⟨c, hc, hid⟩, _, _⟩ := h
      exact absurd hid (hnone c hc)
    · simp [httpError] at h
  | some validCondo =>
    have hfirst := (findValidCondo_eq_some_iff p.CondoId s.condos validCondo).mp hfind
    have hmem : ∃ c ∈ s.condos, c.CondoId = p.CondoId := by
      obtain ⟨pre, post, hsplit, _, hid⟩ := hfirst
      exact ⟨validCondo, by simp [hsplit], hid⟩
    cases hty : validTypeId p.TypeId validCondo.Types with
    | false =>
      have hno : ¬ ∃ t ∈ validCondo.Types, t.TypeId = p.TypeId := by
        rw [← validTypeId_eq_true_iff]
        simp [hty]
      rw [createListing_of_bad_type s p validCondo hfind hty]
      refine ⟨⟨fun h => ?_, fun h => ?_⟩, fun h => ?_⟩
      · simp [httpError] at h
      · exact absurd (h.2.1 validCondo hfirst) hno
      · simp [httpError] at h
    | true =>
      have hyes := (validTypeId_eq_true_iff p.TypeId validCondo.Types).mp hty
      cases hdup : listingIdExists p.ListingId s.listings with
      | true =>
        have hex := (listingIdExists_eq_true_iff p.ListingId s.listings).mp hdup
        rw [createListing_of_duplicate s p validCondo hfind hty hdup]
        refine ⟨⟨fun h => ?_, fun h => ?_⟩, fun h => ?_⟩
        · simp [httpError] at h
        · obtain ⟨l, hl, hid⟩ := hex
          exact absurd hid (h.2.2 l hl)
        · simp [httpError] at h
      | false =>
        have hfresh : ∀ l ∈ s.listings, l.ListingId ≠ p.ListingId := by
          intro l hl hid
          have := (listingIdExists_eq_true_iff p.ListingId s.listings).mpr ⟨l, hl, hid⟩
          simp [hdup] at this
        rw [createListing_of_valid s p validCondo hfind hty hdup]
        refine ⟨⟨fun _ => ⟨hmem, ?_, hfresh⟩, fun _ => ?_⟩, fun _ => ?_⟩
        · intro c hc
          rw [firstCondoWithId_unique hc hfirst]
          exact hyes
        · simp [jsonResponse]
        · simp [jsonResponse]

/-- Witness for C1: the seed store accepts listing 5 under condo 1 with type "SP1"; the
three conditions hold there and give status 201 and the appended listings. -/
theorem createListing_created_iff_witness :
    (createListing seedStore (some listingFive)).2.status = 201 ∧
    (createListing seedStore (some listingFive)).1.listings = seedStore.listings ++ [listingFive] ∧
    (createListing seedStore (some listingFive)).2.body = Body.listing listingFive ∧
    (createListing seedStore (some listingFive)).1.condos = seedStore.condos :=
  have hfirst : FirstCondoWithId seedStore.condos listingFive.CondoId sunsetPlaza :=
    ⟨[], [oceanBreeze], rfl, by simp, rfl⟩
  have hstatus : (createListing seedStore (some listingFive)).2.status = 201 :=
    (createListing_created_iff seedStore listingFive).1.mpr
      ⟨by decide, fun c hc => by rw [firstCondoWithId_unique hc hfirst]; decide, by decide⟩
  ⟨hstatus, (createListing_created_iff seedStore listingFive).2 hstatus⟩

/-- C2: when no condo has the payload's condoId, `createListing` answers 400 with the
message "Invalid Condo ID", whatever the other fields of the payload are, and neither the
listings nor the condos change. -/
theorem createListing_unknown_condo (s : Store) (p : Listing)
    (h : ∀ c ∈ s.condos, c.CondoId ≠ p.CondoId) :
    (createListing s (some p)).2 = httpError "Invalid Condo ID" 400 ∧
    (createListing s (some p)).2.status = 400 ∧
    (createListing s (some p)).1.listings = s.listings ∧
    (createListing s (some p)).1.condos = s.condos := by
  rw [createListing_of_no_condo s p ((findValidCondo_eq_none_iff p.CondoId s.condos).mpr h)]
  simp [httpError]

/-- Witness for C2: the seed store has no condo 9, and the payload reuses listingId 1 and
a typeId of condo 1. -/
theorem createListing_unknown_condo_witness :
    (∀ c ∈ seedStore.condos, c.CondoId ≠ listingUnknownCondo.CondoId) ∧
    (createListing seedStore (some listingUnknownCondo)).2 = httpError "Invalid Condo ID" 400 ∧
    (createListing seedStore (some listingUnknownCondo)).1.listings = seedStore.listings :=
  ⟨by decide,
   (createListing_unknown_condo seedStore listingUnknownCondo (by decide)).1,
   (createListing_unknown_condo seedStore listingUnknownCondo (by decide)).2.2.1⟩

/-- C3: when the payload's condoId is that of a stored condo and the matched condo (the
first with that condoId) has no type with the payload's typeId, `createListing` answers 400
with the message "Invalid Type ID", whether or not the listingId is taken, and the store
is unchanged. -/
theorem createListing_unknown_type (s : Store) (p : Listing) (c : Condo)
    (hc : FirstCondoWithId s.condos p.CondoId c)
    (ht : ∀ t ∈ c.Types, t.TypeId ≠ p.TypeId) :
    (createListing s (some p)).2 = httpError "Invalid Type ID" 400 ∧
    (createListing s (some p)).2.status = 400 ∧
    (createListing s (some p)).1 = s := by
  have hfind := (findValidCondo_eq_some_iff p.CondoId s.condos c).mpr hc
  have hty : validTypeId p.TypeId c.Types = false := by
    cases hv : validTypeId p.TypeId c.Types with
    | false => rfl
    | true =>
      obtain ⟨t, hmem, hid⟩ := (validTypeId_eq_true_iff p.TypeId c.Types).mp hv
      exact absurd hid (ht t hmem)
  rw [createListing_of_bad_type s p c hfind hty]
  simp [httpError]

/-- Witness for C3: in the seed store condo 1 has no type "OB1-ov"; the payload's
listingId 1 is already taken. -/
theorem createListing_unknown_type_witness :
    FirstCondoWithId seedStore.condos listingUnknownType.CondoId sunsetPlaza ∧
    (∀ t ∈ sunsetPlaza.Types, t.TypeId ≠ listingUnknownType.TypeId) ∧
    (∃ l ∈ seedStore.listings, l.ListingId = listingUnknownType.ListingId) ∧
    (createListing seedStore (some listingUnknownType)).2 = httpError "Invalid Type ID" 400 ∧
    (createListing seedStore (some listingUnknownType)).1 = seedStore :=
  have hfirst : FirstCondoWithId seedStore.condos listingUnknownType.CondoId sunsetPlaza :=
    ⟨[], [oceanBreeze], rfl, by simp, rfl⟩
  have h := createListing_unknown_type seedStore listingUnknownType sunsetPlaza hfirst (by decide)
  ⟨hfirst, by decide, by decide, h.1, h.2.2⟩

/-- C4: when the payload names a stored condo and a typeId of the matched condo (the first
with that condoId), and a stored listing already has the payload's listingId,
`createListing` answers 400 with the message "Listing ID already exists" and the listings
are unchanged. -/
theorem createListing_duplicate_listing (s : Store) (p : Listing) (c : Condo)
    (hc : FirstCondoWithId s.condos p.CondoId c)
    (ht : ∃ t ∈ c.Types, t.TypeId = p.TypeId)
    (hdup : ∃ l ∈ s.listings, l.ListingId = p.ListingId) :
    (createListing s (some p)).2 = httpError "Listing ID already exists" 400 ∧
    (createListing s (some p)).2.status = 400 ∧
    (createListing s (some p)).1.listings = s.listings := by
  have hfind := (findValidCondo_eq_some_iff p.CondoId s.condos c).mpr hc
  have hty := (validTypeId_eq_true_iff p.TypeId c.Types).mpr ht
  have hex := (listingIdExists_eq_true_iff p.ListingId s.listings).mpr hdup
  rw [createListing_of_duplicate s p c hfind hty hex]
  simp [httpError]

/-- Witness for C4: in the seed store condo 2 has type "OB2-ov" and listing 3 exists. -/
theorem createListing_duplicate_listing_witness :
    FirstCondoWithId seedStore.condos listingDuplicateId.CondoId oceanBreeze ∧
    (∃ t ∈ oceanBreeze.Types, t.TypeId = listingDuplicateId.TypeId) ∧
    (∃ l ∈ seedStore.listings, l.ListingId = listingDuplicateId.ListingId) ∧
    (createListing seedStore (some listingDuplicateId)).2 =
      httpError "Listing ID already exists" 400 ∧
    (createListing seedStore (some listingDuplicateId)).1.listings = seedStore.listings :=
  have hfirst : FirstCondoWithId seedStore.condos listingDuplicateId.CondoId oceanBreeze :=
    ⟨[sunsetPlaza], [], rfl, by decide, rfl⟩
  have h := createListing_duplicate_listing seedStore listingDuplicateId oceanBreeze hfirst
    (by decide) (by decide)
  ⟨hfirst, by decide, by decide, h.1, h.2.2⟩

/-! ## createCondo -/

theorem condoExists_eq_true_iff (newCondo : Condo) (condos : List Condo) :
    condoExists newCondo condos = true ↔
      ∃ c ∈ condos, c.CondoId = newCondo.CondoId ∨ c.CondoName = newCondo.CondoName := by
  induction condos with
  | nil => simp [condoExists]
  | cons condo rest ih =>
    by_cases h : condo.CondoId = newCondo.CondoId ∨ condo.CondoName = newCondo.CondoName
    · simp only [condoExists, h, if_true, true_iff]
      exact ⟨condo, by simp, h⟩
    · simp only [condoExists, h, if_false, ih, List.mem_cons]
      constructor
      · rintro ⟨c, hc, hm⟩
        exact ⟨c, Or.inr hc, hm⟩
      · rintro ⟨c, hc | hc, hm⟩
        · exact absurd (hc ▸ hm) h
        · exact ⟨c, hc, hm⟩

/-- C5: when no stored condo has the payload's condoId and none has its condoName,
`createCondo` answers 201 with the payload as body, the condos are the old ones followed by
the payload, and the array that `getCondos` then returns holds exactly one element equal to
the payload. -/
theorem createCondo_created (s : Store) (p : Condo)
    (hid : ∀ c ∈ s.condos, c.CondoId ≠ p.CondoId)
    (hname : ∀ c ∈ s.condos, c.CondoName ≠ p.CondoName) :
    (createCondo s (some p)).2.status = 201 ∧
    (createCondo s (some p)).2.body = Body.condo p ∧
    (createCondo s (some p)).1.condos = s.condos ++ [p] ∧
    (getCondos (createCondo s (some p)).1).2.status = 200 ∧
    (getCondos (createCondo s (some p)).1).2.body = Body.condos (s.condos ++ [p]) ∧
    (s.condos ++ [p]).count p = 1 := by
  have hno : condoExists p s.condos = false := by
    cases hv : condoExists p s.condos with
    | false => rfl
    | true =>
      obtain ⟨c, hc, hm⟩ := (condoExists_eq_true_iff p s.condos).mp hv
      rcases hm with hm | hm
      · exact absurd hm (hid c hc)
      · exact absurd hm (hname c hc)
  have hnotin : p ∉ s.condos := fun hp => hid p hp rfl
  have hcount : (s.condos ++ [p]).count p = 1 := by
    rw [List.count_append, List.count_eq_zero_of_not_mem hnotin]
    simp
  simp [createCondo, hno, getCondos, jsonResponse, hcount]

/-- Witness for C5: the seed store uses neither id 3 nor the name "Harbour View". -/
theorem createCondo_created_witness :
    (∀ c ∈ seedStore.condos, c.CondoId ≠ condoHarbourView.CondoId) ∧
    (∀ c ∈ seedStore.condos, c.CondoName ≠ condoHarbourView.CondoName) ∧
    (createCondo seedStore (some condoHarbourView)).2.status = 201 ∧
    (createCondo seedStore (some condoHarbourView)).1.condos =
      [sunsetPlaza, oceanBreeze, condoHarbourView] :=
  have h := createCondo_created seedStore condoHarbourView (by decide) (by decide)
  ⟨by decide, by decide, h.1, h.2.2.1⟩

/-- C6: when some stored condo has the payload's condoId, or some stored condo has its
condoName, `createCondo` answers 400 with the message "Condo already exists" and neither
the condos nor the listings change. -/
theorem createCondo_duplicate (s : Store) (p : Condo)
    (h : (∃ c ∈ s.condos, c.CondoId = p.CondoId) ∨ (∃ c ∈ s.condos, c.CondoName = p.CondoName)) :
    (createCondo s (some p)).2 = httpError "Condo already exists" 400 ∧
    (createCondo s (some p)).2.status = 400 ∧
    (createCondo s (some p)).1.condos = s.condos ∧
    (createCondo s (some p)).1.listings = s.listings := by
  have hyes : condoExists p s.condos = true := by
    rw [condoExists_eq_true_iff]
    rcases h with ⟨c, hc, hm⟩ | ⟨c, hc, hm⟩
    · exact ⟨c, hc, Or.inl hm⟩
    · exact ⟨c, hc, Or.inr hm⟩
  simp [createCondo, hyes, httpError]

/-- Witness for C6: the payload has the unused id 7 but the name of seed condo 2. -/
theorem createCondo_duplicate_witness :
    ((∃ c ∈ seedStore.condos, c.CondoId = condoSameName.CondoId) ∨
      (∃ c ∈ seedStore.condos, c.CondoName = condoSameName.CondoName)) ∧
    (createCondo seedStore (some condoSameName)).2 = httpError "Condo already exists" 400 ∧
    (createCondo seedStore (some condoSameName)).1.condos = seedStore.condos ∧
    (createCondo seedStore (some condoSameName)).1.listings = seedStore.listings :=
  have h := createCondo_duplicate seedStore condoSameName (Or.inr (by decide))
  ⟨Or.inr (by decide), h.1, h.2.2.1, h.2.2.2⟩

/-! ## deleteListing -/

theorem listingIndex_eq_none (listingIdToDelete : Int) (listings : List Listing)
    (h : ∀ l ∈ listings, l.ListingId ≠ listingIdToDelete) :
    listingIndex listingIdToDelete listings = none := by
  induction listings with
  | nil => rfl
  | cons item rest ih =>
    have hitem : item.ListingId ≠ listingIdToDelete := h item (by simp)
    have hrest := ih (fun l hl => h l (by simp [hl]))
    simp [listingIndex, hitem, hrest]

theorem listingIndex_of_mem (listingIdToDelete : Int) (listings : List Listing)
    (h : ∃ l ∈ listings, l.ListingId = listingIdToDelete) :
    ∃ pre x post, listings = pre ++ x :: post ∧
      (∀ y ∈ pre, y.ListingId ≠ listingIdToDelete) ∧ x.ListingId = listingIdToDelete ∧
      listingIndex listingIdToDelete listings = some pre.length := by
  induction listings with
  | nil => simp at h
  | cons item rest ih =>
    by_cases hitem : item.ListingId = listingIdToDelete
    · exact ⟨[], item, rest, rfl, by simp, hitem, by simp [listingIndex, hitem]⟩
    · have hrest : ∃ l ∈ rest, l.ListingId = listingIdToDelete := by
        obtain ⟨l, hl, hid⟩ := h
        rcases List.mem_cons.mp hl with hl | hl
        · exact absurd (hl ▸ hid) hitem
        · exact ⟨l, hl, hid⟩
      obtain ⟨pre, x, post, hsplit, hpre, hx, hidx⟩ := ih hrest
      refine ⟨item :: pre, x, post, by simp [hsplit], ?_, hx, by simp [listingIndex, hitem, hidx]⟩
      intro y hy
      rcases List.mem_cons.mp hy with hy | hy
      · exact hy ▸ hitem
      · exact hpre y hy

theorem take_drop_split {α : Type} (pre : List α) (x : α) (post : List α) :
    (pre ++ x :: post).take pre.length ++ (pre ++ x :: post).drop (pre.length + 1) = pre ++ post := by
  induction pre with
  | nil => simp
  | cons y pre ih => simp [ih]

/-- C7: when some stored listing has listingId `id`, `deleteListing` removes the first
such listing and nothing else: the listings split as `pre ++ x :: post` with `x` the first
listing with that id, the new listings are `pre ++ post` (the elements before that index
followed by the elements after it), the answer is 200 and the body is the new listings. -/
theorem deleteListing_removes_first (s : Store) (id : Int)
    (h : ∃ l ∈ s.listings, l.ListingId = id) :
    ∃ pre x post, s.listings = pre ++ x :: post ∧
      (∀ y ∈ pre, y.ListingId ≠ id) ∧ x.ListingId = id ∧
      (deleteListing s (some id)).1.listings = pre ++ post ∧
      (deleteListing s (some id)).1.listings =
        s.listings.take pre.length ++ s.listings.drop (pre.length + 1) ∧
      (deleteListing s (some id)).2.status = 200 ∧
      (deleteListing s (some id)).2.body = Body.listings (pre ++ post) := by
  obtain ⟨pre, x, post, hsplit, hpre, hx, hidx⟩ := listingIndex_of_mem id s.listings h
  have hcut : s.listings.take pre.length ++ s.listings.drop (pre.length + 1) = pre ++ post := by
    rw [hsplit]
    exact take_drop_split pre x post
  refine ⟨pre, x, post, hsplit, hpre, hx, ?_, ?_, ?_, ?_⟩
  · simp only [deleteListing, hidx, hcut]
  · simp only [deleteListing, hidx]
  · simp [deleteListing, jsonResponse]
  · simp only [deleteListing, hidx, hcut, jsonResponse]

/-- Witness for C7: deleting listing 2 from the seed store. -/
theorem deleteListing_removes_first_witness :
    (∃ l ∈ seedStore.listings, l.ListingId = 2) ∧
    (∃ pre x post, seedStore.listings = pre ++ x :: post ∧
      (∀ y ∈ pre, y.ListingId ≠ 2) ∧ x.ListingId = 2 ∧
      (deleteListing seedStore (some 2)).1.listings = pre ++ post ∧
      (deleteListing seedStore (some 2)).1.listings =
        seedStore.listings.take pre.length ++ seedStore.listings.drop (pre.length + 1) ∧
      (deleteListing seedStore (some 2)).2.status = 200 ∧
      (deleteListing seedStore (some 2)).2.body = Body.listings (pre ++ post)) :=
  ⟨by decide, deleteListing_removes_first seedStore 2 (by decide)⟩

/-- C8: when no stored listing has listingId `id`, `deleteListing` leaves the listings and
the condos as they are and answers 200 with the unchanged listings as body. -/
theorem deleteListing_absent (s : Store) (id : Int)
    (h : ∀ l ∈ s.listings, l.ListingId ≠ id) :
    (deleteListing s (some id)).1.listings = s.listings ∧
    (deleteListing s (some id)).1.condos = s.condos ∧
    (deleteListing s (some id)).2.status = 200 ∧
    (deleteListing s (some id)).2.body = Body.listings s.listings := by
  have hidx := listingIndex_eq_none id s.listings h
  simp [deleteListing, hidx, jsonResponse]

/-- Witness for C8: the seed store has no listing 42. -/
theorem deleteListing_absent_witness :
    (∀ l ∈ seedStore.listings, l.ListingId ≠ 42) ∧
    (deleteListing seedStore (some 42)).1.listings = seedStore.listings ∧
    (deleteListing seedStore (some 42)).2.status = 200 ∧
    (deleteListing seedStore (some 42)).2.body = Body.listings seedStore.listings :=
  have h := deleteListing_absent seedStore 42 (by decide)
  ⟨by decide, h.1, h.2.2.1, h.2.2.2⟩

/-! ## deleteCondo -/

theorem condoIndex_eq_none (condoIdToDelete : Int) (condos : List Condo)
    (h : ∀ c ∈ condos, c.CondoId ≠ condoIdToDelete) :
    condoIndex condoIdToDelete condos = none := by
  induction condos with
  | nil => rfl
  | cons item rest ih =>
    have hitem : item.CondoId ≠ condoIdToDelete := h item (by simp)
    have hrest := ih (fun c hc => h c (by simp [hc]))
    simp [condoIndex, hitem, hrest]

theorem condoIndex_of_split (condoIdToDelete : Int) (pre : List Condo) (c : Condo)
    (post : List Condo) (hpre : ∀ d ∈ pre, d.CondoId ≠ condoIdToDelete)
    (hc : c.CondoId = condoIdToDelete) :
    condoIndex condoIdToDelete (pre ++ c :: post) = some pre.length := by
  induction pre with
  | nil => simp [condoIndex, hc]
  | cons d pre ih =>
    have hd : d.CondoId ≠ condoIdToDelete := hpre d (by simp)
    have hrest := ih (fun e he => hpre e (by simp [he]))
    simp [condoIndex, hd, hrest]

/-- C9: `deleteCondo` answers 200 with the resulting condos as body and never touches the
listings (so listings of the deleted condo stay); the condos are unchanged when no condo has
the id, and otherwise lose exactly the first condo with that id: for the split
`pre ++ c :: post` at the first match the new condos are `pre ++ post`. -/
theorem deleteCondo_no_cascade (s : Store) (condoId : Int) :
    (deleteCondo s (some condoId)).1.listings = s.listings ∧
    (deleteCondo s (some condoId)).2.status = 200 ∧
    (deleteCondo s (some condoId)).2.body = Body.condos (deleteCondo s (some condoId)).1.condos ∧
    ((∀ c ∈ s.condos, c.CondoId ≠ condoId) → (deleteCondo s (some condoId)).1.condos = s.condos) ∧
    (∀ pre c post, s.condos = pre ++ c :: post → (∀ d ∈ pre, d.CondoId ≠ condoId) →
      c.CondoId = condoId → (deleteCondo s (some condoId)).1.condos = pre ++ post) := by
  refine ⟨by simp [deleteCondo], by simp [deleteCondo, jsonResponse],
    by simp [deleteCondo, jsonResponse], ?_, ?_⟩
  · intro h
    simp [deleteCondo, condoIndex_eq_none condoId s.condos h]
  · intro pre c post hsplit hpre hc
    have hidx : condoIndex condoId s.condos = some pre.length := by
      rw [hsplit]
      exact condoIndex_of_split condoId pre c post hpre hc
    simp only [deleteCondo, hidx]
    rw [hsplit]
    exact take_drop_split pre c post

/-- Witness for C9: deleting condo 1 from the seed store leaves condo 2 only, while all
four listings stay, listings of condo 1 among them. -/
theorem deleteCondo_no_cascade_witness :
    (deleteCondo seedStore (some 1)).1.condos = [oceanBreeze] ∧
    (deleteCondo seedStore (some 1)).1.listings = seedListings ∧
    (∃ l ∈ (deleteCondo seedStore (some 1)).1.listings, l.CondoId = 1) ∧
    (deleteCondo seedStore (some 5)).1.condos = seedCondos :=
  ⟨(deleteCondo_no_cascade seedStore 1).2.2.2.2 [] sunsetPlaza [oceanBreeze] rfl (by simp) rfl,
   (deleteCondo_no_cascade seedStore 1).1,
   by rw [(deleteCondo_no_cascade seedStore 1).1]; decide,
   (deleteCondo_no_cascade seedStore 5).2.2.2.1 (by decide)⟩

/-! ## getListingsByCondoId -/

theorem collectListings_eq (p : Listing → Bool) (listings : List Listing)
    (acc : Option (List Listing)) :
    collectListings p listings acc =
      if listings.filter p = [] then acc else some (acc.getD [] ++ listings.filter p) := by
  induction listings generalizing acc with
  | nil => simp [collectListings]
  | cons listing rest ih =>
    cases hp : p listing with
    | false => simp [collectListings, hp, ih]
    | true =>
      simp only [collectListings, hp, if_true, ih, goAppend, Option.getD_some, List.filter_cons,
        List.append_assoc, List.singleton_append]
      by_cases hrest : rest.filter p = []
      · simp [hrest]
      · simp [hrest]

theorem collectListings_none (p : Listing → Bool) (listings : List Listing) :
    collectListings p listings none =
      if listings.filter p = [] then none else some (listings.filter p) := by
  rw [collectListings_eq]
  simp

/-- C10: for an integer condoId, `getListingsByCondoId` never changes the store; it
answers 404 exactly when no stored listing has that condoId (the filter of the listings by
`CondoId = condoId` is empty), and otherwise answers 200 with exactly that filter, in store
order, as body. -/
theorem getListingsByCondoId_filter (s : Store) (condoId : Int) :
    (getListingsByCondoId s (some condoId)).1 = s ∧
    ((getListingsByCondoId s (some condoId)).2.status = 404 ↔
      s.listings.filter (fun l => decide (l.CondoId = condoId)) = []) ∧
    (s.listings.filter (fun l => decide (l.CondoId = condoId)) = [] →
      (getListingsByCondoId s (some condoId)).2 =
        httpError "No listings found for the specified Condo ID" 404) ∧
    (s.listings.filter (fun l => decide (l.CondoId = condoId)) ≠ [] →
      (getListingsByCondoId s (some condoId)).2.status = 200 ∧
      (getListingsByCondoId s (some condoId)).2.body =
        Body.listings (s.listings.filter (fun l => decide (l.CondoId = condoId)))) := by
  by_cases hnil : s.listings.filter (fun l => decide (l.CondoId = condoId)) = []
  · have hres : getListingsByCondoId s (some condoId) =
        (s, httpError "No listings found for the specified Condo ID" 404) := by
      simp [getListingsByCondoId, collectListings_none, hnil, goLen]
    rw [hres]
    simp [hnil, httpError]
  · have hres : getListingsByCondoId s (some condoId) =
        (s, jsonResponse 200
          (Body.listings (s.listings.filter (fun l => decide (l.CondoId = condoId))))) := by
      simp [getListingsByCondoId, collectListings_none, hnil, goLen, encodeListings]
    rw [hres]
    simp [hnil, jsonResponse]

/-- Witness for C10: in the seed store condo 2 has listings, returned with status 200,
and condo 9 has none, which gives 404. -/
theorem getListingsByCondoId_filter_witness :
    (getListingsByCondoId seedStore (some 2)).2.status = 200 ∧
    (getListingsByCondoId seedStore (some 2)).2.body =
      Body.listings (seedStore.listings.filter (fun l => decide (l.CondoId = 2))) ∧
    (getListingsByCondoId seedStore (some 9)).2.status = 404 ∧
    (getListingsByCondoId seedStore (some 9)).1 = seedStore :=
  ⟨((getListingsByCondoId_filter seedStore 2).2.2.2 (by decide)).1,
   ((getListingsByCondoId_filter seedStore 2).2.2.2 (by decide)).2,
   (getListingsByCondoId_filter seedStore 9).2.1.mpr (by decide),
   (getListingsByCondoId_filter seedStore 9).1⟩

/-! ## Queries with no match -/

theorem filter_eq_nil_of_forall {p : Listing → Bool} {listings : List Listing}
    (h : ∀ l ∈ listings, p l = false) : listings.filter p = [] := by
  induction listings with
  | nil => rfl
  | cons l rest ih =>
    have hl : p l = false := h l (by simp)
    simp [List.filter_cons, hl, ih (fun x hx => h x (by simp [hx]))]

theorem getListingsByStatus_no_match (s : Store) (status : String)
    (h : ∀ l ∈ s.listings, l.Status ≠ status) :
    getListingsByStatus s (some status) = (s, jsonResponse 200 Body.jsonNull) := by
  have hnil : s.listings.filter (fun l => decide (l.Status = status)) = [] :=
    filter_eq_nil_of_forall (fun l hl => by simp [h l hl])
  simp [getListingsByStatus, collectListings_none, hnil, encodeListings]

theorem getListingsByCondoIdAndStatus_no_match (s : Store) (condoId : Int) (status : String)
    (h : ∀ l ∈ s.listings, l.Status ≠ status) :
    getListingsByCondoIdAndStatus s (some condoId) (some status) =
      (s, httpError "No listings found for the specified Status in Condo Listings." 404) := by
  have hnil : s.listings.filter
      (fun l => decide (l.CondoId = condoId ∧ l.Status = status)) = [] :=
    filter_eq_nil_of_forall (fun l hl => by simp [h l hl])
  simp only [getListingsByCondoIdAndStatus, collectListings_none, hnil, goLen, if_true,
    Option.getD_none, List.length_nil]

theorem getListingsByCondoIdAndType_no_match (s : Store) (condoId : Int) (typeId : String)
    (h : s.listings.filter (fun l => decide (l.CondoId = condoId ∧ l.TypeId = typeId)) = []) :
    getListingsByCondoIdAndType s (some condoId) (some typeId) =
      (s, httpError "No listings found for the specified Type in Condo Listings." 404) := by
  simp only [getListingsByCondoIdAndType, collectListings_none, h, goLen, if_true,
    Option.getD_none, List.length_nil]

/-- C11: evaluation at the failing input.  No seed listing has status "sold"; the status
query answers 200, but its body is the JSON `null` of a nil slice and not an empty array,
while the query that also names condo 1 answers 404. -/
theorem getListingsByStatus_no_match_null :
    (∀ l ∈ seedStore.listings, l.Status ≠ "sold") ∧
    (getListingsByStatus seedStore (some "sold")).2.status = 200 ∧
    (getListingsByStatus seedStore (some "sold")).2.body = Body.jsonNull ∧
    (getListingsByStatus seedStore (some "sold")).2.body ≠ Body.listings [] ∧
    (getListingsByCondoIdAndStatus seedStore (some 1) (some "sold")).2.status = 404 := by
  have hno : ∀ l ∈ seedStore.listings, l.Status ≠ "sold" := by decide
  refine ⟨hno, ?_, ?_, ?_, ?_⟩
  · rw [getListingsByStatus_no_match seedStore "sold" hno]
    rfl
  · rw [getListingsByStatus_no_match seedStore "sold" hno]
    rfl
  · rw [getListingsByStatus_no_match seedStore "sold" hno]
    simp [jsonResponse]
  · rw [getListingsByCondoIdAndStatus_no_match seedStore 1 "sold" hno]
    rfl

/-! ## getListingsDetailFromListingsByCondoId -/

theorem findListingDetail_eq_none (condoId listingId : Int) (listings : List Listing)
    (h : ∀ y ∈ listings, ¬ (y.CondoId = condoId ∧ y.ListingId = listingId)) :
    findListingDetail condoId listingId listings = none := by
  induction listings with
  | nil => rfl
  | cons listing rest ih =>
    have hl : ¬ (listing.CondoId = condoId ∧ listing.ListingId = listingId) := h listing (by simp)
    have hrest := ih (fun y hy => h y (by simp [hy]))
    simp only [findListingDetail, hl, if_false, hrest]

theorem findListingDetail_of_mem (condoId listingId : Int) (listings : List Listing)
    (h : ∃ y ∈ listings, y.CondoId = condoId ∧ y.ListingId = listingId) :
    ∃ pre x post, listings = pre ++ x :: post ∧
      (∀ y ∈ pre, ¬ (y.CondoId = condoId ∧ y.ListingId = listingId)) ∧
      (x.CondoId = condoId ∧ x.ListingId = listingId) ∧
      findListingDetail condoId listingId listings = some x := by
  induction listings with
  | nil => simp at h
  | cons listing rest ih =>
    by_cases hl : listing.CondoId = condoId ∧ listing.ListingId = listingId
    · exact ⟨[], listing, rest, rfl, by simp, hl, by simp only [findListingDetail, hl, and_self, if_true]⟩
    · have hrest : ∃ y ∈ rest, y.CondoId = condoId ∧ y.ListingId = listingId := by
        obtain ⟨y, hy, hm⟩ := h
        rcases List.mem_cons.mp hy with hy | hy
        · exact absurd (hy ▸ hm) hl
        · exact ⟨y, hy, hm⟩
      obtain ⟨pre, x, post, hsplit, hpre, hx, hfind⟩ := ih hrest
      refine ⟨listing :: pre, x, post, by simp [hsplit], ?_, hx, ?_⟩
      · intro y hy
        rcases List.mem_cons.mp hy with hy | hy
        · exact hy ▸ hl
        · exact hpre y hy
      · simp only [findListingDetail, hl, if_false, hfind]

/-- C12: for integers condoId and listingId, when some listing matches both the handler
answers 200 with exactly one listing as body, the first listing matching both (the listings
split as `pre ++ x :: post` with no match in `pre`); when no listing matches both it
answers 200 with no body, and the store is unchanged either way. -/
theorem getListingsDetail_first_match (s : Store) (condoId listingId : Int) :
    ((∃ y ∈ s.listings, y.CondoId = condoId ∧ y.ListingId = listingId) →
      ∃ pre x post, s.listings = pre ++ x :: post ∧
        (∀ y ∈ pre, ¬ (y.CondoId = condoId ∧ y.ListingId = listingId)) ∧
        (x.CondoId = condoId ∧ x.ListingId = listingId) ∧
        getListingsDetailFromListingsByCondoId s (some condoId) (some listingId) =
          (s, jsonResponse 200 (Body.listing x))) ∧
    ((∀ y ∈ s.listings, ¬ (y.CondoId = condoId ∧ y.ListingId = listingId)) →
      getListingsDetailFromListingsByCondoId s (some condoId) (some listingId) =
        (s, jsonResponse 200 Body.empty)) := by
  constructor
  · intro h
    obtain ⟨pre, x, post, hsplit, hpre, hx, hfind⟩ := findListingDetail_of_mem condoId listingId s.listings h
    exact ⟨pre, x, post, hsplit, hpre, hx, by simp only [getListingsDetailFromListingsByCondoId, hfind]⟩
  · intro h
    simp only [getListingsDetailFromListingsByCondoId,
      findListingDetail_eq_none condoId listingId s.listings h]

/-- Witness for C12: in the seed store condo 1 has listing 2, which is the body, and has
no listing 3, which gives status 200 with no body. -/
theorem getListingsDetail_first_match_witness :
    (∃ x, x.ListingId = 2 ∧ x.CondoId = 1 ∧
      getListingsDetailFromListingsByCondoId seedStore (some 1) (some 2) =
        (seedStore, jsonResponse 200 (Body.listing x))) ∧
    (getListingsDetailFromListingsByCondoId seedStore (some 1) (some 3)).2.status = 200 ∧
    (getListingsDetailFromListingsByCondoId seedStore (some 1) (some 3)).2.body = Body.empty := by
  obtain ⟨_, x, _, _, _, hx, hres⟩ := (getListingsDetail_first_match seedStore 1 2).1 (by decide)
  have hnone := (getListingsDetail_first_match seedStore 1 3).2 (by decide)
  exact ⟨⟨x, hx.2, hx.1, hres⟩, by rw [hnone]; rfl, by rw [hnone]; rfl⟩

/-! ## Seed scenario -/

/-- C13: on the seed store `getListingsByCondoId` with condoId 1 answers 200 with the
listings 1 and 2, in that order, and `getListingsByCondoIdAndStatus` with condoId 1 and
status "available-for-sale" answers 200 with listing 1 alone. -/
theorem seed_condo_one_queries :
    (getListingsByCondoId seedStore (some 1)).2.status = 200 ∧
    (getListingsByCondoId seedStore (some 1)).2.body = Body.listings (seedListings.take 2) ∧
    (seedListings.take 2).map (fun l => l.ListingId) = [1, 2] ∧
    (getListingsByCondoIdAndStatus seedStore (some 1) (some "available-for-sale")).2.status = 200 ∧
    (getListingsByCondoIdAndStatus seedStore (some 1) (some "available-for-sale")).2.body =
      Body.listings (seedListings.take 1) ∧
    (seedListings.take 1).map (fun l => l.ListingId) = [1] := by
  refine ⟨by decide, by decide, by decide, by decide, by decide, by decide⟩

/-! ## What each mutating handler does to the store -/

theorem take_drop_succ_sublist {α : Type} (l : List α) (i : Nat) :
    (l.take i ++ l.drop (i + 1)).Sublist l := by
  induction l generalizing i with
  | nil => simp
  | cons x rest ih =>
    cases i with
    | zero => simp
    | succ j =>
      simp only [List.take_succ_cons, List.drop_succ_cons, List.cons_append]
      exact (ih j).cons₂ x

theorem deleteListing_store (s : Store) (idParam : Option Int) :
    (deleteListing s idParam).1.listings.Sublist s.listings ∧
    (deleteListing s idParam).1.condos = s.condos := by
  cases idParam with
  | none => simp [deleteListing]
  | some id =>
    cases hidx : listingIndex id s.listings with
    | none => simp [deleteListing, hidx]
    | some index =>
      simp only [deleteListing, hidx, and_true]
      exact take_drop_succ_sublist s.listings index

theorem deleteCondo_store (s : Store) (condoIdParam : Option Int) :
    (deleteCondo s condoIdParam).1.condos.Sublist s.condos ∧
    (deleteCondo s condoIdParam).1.listings = s.listings := by
  cases condoIdParam with
  | none => simp [deleteCondo]
  | some id =>
    cases hidx : condoIndex id s.condos with
    | none => simp [deleteCondo, hidx]
    | some index =>
      simp only [deleteCondo, hidx, and_true]
      exact take_drop_succ_sublist s.condos index

theorem createCondo_store (s : Store) (payload : Option Condo) :
    (createCondo s payload).1 = s ∨
    ∃ c, payload = some c ∧
      (∀ d ∈ s.condos, d.CondoId ≠ c.CondoId ∧ d.CondoName ≠ c.CondoName) ∧
      (createCondo s payload).1 = { s with condos := s.condos ++ [c] } := by
  cases payload with
  | none => exact Or.inl rfl
  | some c =>
    cases hex : condoExists c s.condos with
    | true => exact Or.inl (by simp [createCondo, hex])
    | false =>
      refine Or.inr ⟨c, rfl, ?_, by simp [createCondo, hex]⟩
      intro d hd
      constructor
      · intro hid
        have := (condoExists_eq_true_iff c s.condos).mpr ⟨d, hd, Or.inl hid⟩
        simp [hex] at this
      · intro hname
        have := (condoExists_eq_true_iff c s.condos).mpr ⟨d, hd, Or.inr hname⟩
        simp [hex] at this

theorem createListing_store (s : Store) (payload : Option Listing) :
    (createListing s payload).1 = s ∨
    ∃ l c, payload = some l ∧ FirstCondoWithId s.condos l.CondoId c ∧
      (∃ t ∈ c.Types, t.TypeId = l.TypeId) ∧
      (∀ x ∈ s.listings, x.ListingId ≠ l.ListingId) ∧
      (createListing s payload).1 = { s with listings := s.listings ++ [l] } := by
  cases payload with
  | none => exact Or.inl rfl
  | some l =>
    cases hfind : findValidCondo l.CondoId s.condos with
    | none => exact Or.inl (by rw [createListing_of_no_condo s l hfind])
    | some c =>
      cases hty : validTypeId l.TypeId c.Types with
      | false => exact Or.inl (by rw [createListing_of_bad_type s l c hfind hty])
      | true =>
        cases hdup : listingIdExists l.ListingId s.listings with
        | true => exact Or.inl (by rw [createListing_of_duplicate s l c hfind hty hdup])
        | false =>
          refine Or.inr ⟨l, c, rfl, (findValidCondo_eq_some_iff l.CondoId s.condos c).mp hfind,
            (validTypeId_eq_true_iff l.TypeId c.Types).mp hty, ?_,
            by rw [createListing_of_valid s l c hfind hty hdup]⟩
          intro x hx hid
          have := (listingIdExists_eq_true_iff l.ListingId s.listings).mpr ⟨x, hx, hid⟩
          simp [hdup] at this

/-! ## Uniqueness of identifiers -/

theorem seedStore_uniqueIds : UniqueIds seedStore := by
  simp [UniqueIds, seedStore, seedCondos, seedListings, sunsetPlaza, oceanBreeze]

theorem handle_uniqueIds (s : Store) (r : Request) (h : UniqueIds s) :
    UniqueIds (handle s r).1 := by
  obtain ⟨hid, hname, hlist⟩ := h
  cases r with
  | createCondo payload =>
    rcases createCondo_store s payload with hsame | ⟨c, _, hfresh, hnew⟩
    · simp only [handle, hsame]
      exact ⟨hid, hname, hlist⟩
    · simp only [handle, hnew]
      refine ⟨?_, ?_, hlist⟩
      · rw [List.pairwise_append]
        exact ⟨hid, by simp, fun d hd e he => by
          rw [List.mem_singleton.mp he]
          exact (hfresh d hd).1⟩
      · rw [List.pairwise_append]
        exact ⟨hname, by simp, fun d hd e he => by
          rw [List.mem_singleton.mp he]
          exact (hfresh d hd).2⟩
  | deleteCondo condoIdParam =>
    obtain ⟨hsub, hkeep⟩ := deleteCondo_store s condoIdParam
    exact ⟨hid.sublist hsub, hname.sublist hsub, by simp only [handle, hkeep]; exact hlist⟩
  | createListing payload =>
    rcases createListing_store s payload with hsame | ⟨l, c, _, _, _, hfresh, hnew⟩
    · simp only [handle, hsame]
      exact ⟨hid, hname, hlist⟩
    · simp only [handle, hnew]
      refine ⟨hid, hname, ?_⟩
      rw [List.pairwise_append]
      exact ⟨hlist, by simp, fun d hd e he => by
        rw [List.mem_singleton.mp he]
        exact hfresh d hd⟩
  | deleteListing idParam =>
    obtain ⟨hsub, hkeep⟩ := deleteListing_store s idParam
    exact ⟨by simp only [handle, hkeep]; exact hid, by simp only [handle, hkeep]; exact hname,
      hlist.sublist hsub⟩

theorem run_uniqueIds (s : Store) (rs : List Request) (h : UniqueIds s) :
    UniqueIds (run s rs) := by
  induction rs generalizing s with
  | nil => exact h
  | cons r rest ih => exact ih (handle s r).1 (handle_uniqueIds s r h)

/-- C14: in the seed store and in every store reached from it by a finite sequence of
createCondo, deleteCondo, createListing and deleteListing requests, whatever their payloads
and ids, no two condos share a condoId, no two condos share a condoName and no two listings
share a listingId. -/
theorem reachable_unique_ids (rs : List Request) :
    (run seedStore rs).condos.Pairwise (fun a b => a.CondoId ≠ b.CondoId) ∧
    (run seedStore rs).condos.Pairwise (fun a b => a.CondoName ≠ b.CondoName) ∧
    (run seedStore rs).listings.Pairwise (fun a b => a.ListingId ≠ b.ListingId) :=
  run_uniqueIds seedStore rs seedStore_uniqueIds

/-- Witness for C14: after the sample requests the store holds condos 2 and 3 and
listings 1, 3, 4 and 5, with pairwise distinct identifiers. -/
theorem reachable_unique_ids_witness :
    (run seedStore sampleRequests).condos.map (fun c => c.CondoId) = [2, 3] ∧
    (run seedStore sampleRequests).listings.map (fun l => l.ListingId) = [1, 3, 4, 5] ∧
    (run seedStore sampleRequests).condos.Pairwise (fun a b => a.CondoName ≠ b.CondoName) ∧
    (run seedStore sampleRequests).listings.Pairwise (fun a b => a.ListingId ≠ b.ListingId) :=
  ⟨by decide, by decide, (reachable_unique_ids sampleRequests).2.1,
   (reachable_unique_ids sampleRequests).2.2⟩

/-! ## Room types of a condo -/

theorem createCondo_accepted_or_same (s : Store) (payload : Option Condo) :
    (createCondo s payload).1 = s ∨
    ∃ c, payload = some c ∧ (createCondo s (some c)).2.status = 201 ∧
      (createCondo s payload).1 = { s with condos := s.condos ++ [c] } := by
  cases payload with
  | none => exact Or.inl rfl
  | some c =>
    cases hex : condoExists c s.condos with
    | true => exact Or.inl (by simp [createCondo, hex])
    | false => exact Or.inr ⟨c, rfl, by simp [createCondo, hex, jsonResponse], by simp [createCondo, hex]⟩

theorem handle_typesDistinct (s : Store) (r : Request)
    (hs : ∀ c ∈ s.condos, TypesDistinct c)
    (hr : ∀ c, r = Request.createCondo (some c) → (createCondo s (some c)).2.status = 201 →
      TypesDistinct c) :
    ∀ c ∈ (handle s r).1.condos, TypesDistinct c := by
  cases r with
  | createCondo payload =>
    rcases createCondo_accepted_or_same s payload with hsame | ⟨p, hp, hok, hnew⟩
    · simp only [handle, hsame]
      exact hs
    · simp only [handle, hnew]
      intro c hc
      rcases List.mem_append.mp hc with hc | hc
      · exact hs c hc
      · rw [List.mem_singleton.mp hc]
        exact hr p (by rw [hp]) hok
  | deleteCondo condoIdParam =>
    intro c hc
    exact hs c ((deleteCondo_store s condoIdParam).1.subset hc)
  | createListing payload =>
    rcases createListing_store s payload with hsame | ⟨l, _, _, _, _, _, hnew⟩
    · simp only [handle, hsame]
      exact hs
    · simp only [handle, hnew]
      exact hs
  | deleteListing idParam =>
    simp only [handle, (deleteListing_store s idParam).2]
    exact hs

theorem run_typesDistinct (s : Store) (rs : List Request)
    (hs : ∀ c ∈ s.condos, TypesDistinct c)
    (hr : ∀ pre c post, rs = pre ++ Request.createCondo (some c) :: post →
      (createCondo (run s pre) (some c)).2.status = 201 → TypesDistinct c) :
    ∀ c ∈ (run s rs).condos, TypesDistinct c := by
  induction rs generalizing s with
  | nil => exact hs
  | cons r rest ih =>
    refine ih (handle s r).1 (handle_typesDistinct s r hs ?_) ?_
    · intro c hc hok
      exact hr [] c rest (by rw [hc]; rfl) hok
    · intro pre c post hsplit hok
      exact hr (r :: pre) c post (by rw [hsplit]; rfl) hok

theorem seedStore_typesDistinct : ∀ c ∈ seedStore.condos, TypesDistinct c := by
  simp [TypesDistinct, seedStore, seedCondos, sunsetPlaza, oceanBreeze]

/-- Counterexample for C15: `createCondo` accepts a payload whose two room types share a
typeId, so the store reached from the seed by that one request has a condo whose typeIds
are not pairwise distinct. -/
theorem types_not_always_distinct :
    ¬ ∀ rs : List Request, ∀ c ∈ (run seedStore rs).condos,
        c.Types.Pairwise (fun a b => a.TypeId ≠ b.TypeId) := by
  intro h
  have hmem : condoTwinTypes ∈ (run seedStore [Request.createCondo (some condoTwinTypes)]).condos := by
    decide
  have hbad := h [Request.createCondo (some condoTwinTypes)] condoTwinTypes hmem
  simp [condoTwinTypes] at hbad

/-- C15 as amended: when every condo payload that `createCondo` accepts along the request
sequence (the request at that point answers 201) has room types with pairwise distinct
typeIds, every condo of the store reached from the seed has room types with pairwise
distinct typeIds.  Payloads that `createCondo` refuses are not constrained. -/
theorem types_distinct_of_accepted_payloads (rs : List Request)
    (h : ∀ pre c post, rs = pre ++ Request.createCondo (some c) :: post →
      (createCondo (run seedStore pre) (some c)).2.status = 201 →
      c.Types.Pairwise (fun a b => a.TypeId ≠ b.TypeId)) :
    ∀ c ∈ (run seedStore rs).condos, c.Types.Pairwise (fun a b => a.TypeId ≠ b.TypeId) :=
  run_typesDistinct seedStore rs seedStore_typesDistinct h

/-- Witness for C15 as amended: the accepted payload has the two distinct typeIds "LS1" and
"LS2"; the payload with twice "TW1" reuses condoId 1, is refused with 400 and so is not
constrained; the third request is no `createCondo`.  The store reached has three condos,
each with two distinct typeIds. -/
theorem types_distinct_of_accepted_payloads_witness :
    (∀ pre c post, requestsWithRefusedTwin = pre ++ Request.createCondo (some c) :: post →
      (createCondo (run seedStore pre) (some c)).2.status = 201 →
      c.Types.Pairwise (fun a b => a.TypeId ≠ b.TypeId)) ∧
    (createCondo seedStore (some condoLakeside)).2.status = 201 ∧
    condoLakeside.Types.map (fun t => t.TypeId) = ["LS1", "LS2"] ∧
    (createCondo (run seedStore [Request.createCondo (some condoLakeside)])
      (some condoTwinTakenId)).2.status = 400 ∧
    ¬ condoTwinTakenId.Types.Pairwise (fun a b => a.TypeId ≠ b.TypeId) ∧
    (run seedStore requestsWithRefusedTwin).condos.map (fun c => c.Types.map (fun t => t.TypeId)) =
      [["SP1", "SP2"], ["OB1-ov", "OB2-ov"], ["LS1", "LS2"]] ∧
    (∀ c ∈ (run seedStore requestsWithRefusedTwin).condos,
      c.Types.Pairwise (fun a b => a.TypeId ≠ b.TypeId)) :=
  have h : ∀ pre c post,
      requestsWithRefusedTwin = pre ++ Request.createCondo (some c) :: post →
      (createCondo (run seedStore pre) (some c)).2.status = 201 →
      c.Types.Pairwise (fun a b => a.TypeId ≠ b.TypeId) := by
    intro pre c post hsplit hok
    match pre, hsplit, hok with
    | [], hsplit, _ =>
      have hc : c = condoLakeside := by
        simp only [requestsWithRefusedTwin, List.nil_append, List.cons.injEq,
          Request.createCondo.injEq, Option.some.injEq] at hsplit
        exact hsplit.1.symm
      rw [hc]
      simp [condoLakeside]
    | [r1], hsplit, hok =>
      simp only [requestsWithRefusedTwin, List.cons_append, List.nil_append, List.cons.injEq,
        Request.createCondo.injEq, Option.some.injEq] at hsplit
      obtain ⟨hr1, hc, _⟩ := hsplit
      rw [← hr1, ← hc] at hok
      exact absurd hok (by decide)
    | [_, _], hsplit, _ =>
      simp [requestsWithRefusedTwin] at hsplit
    | _ :: _ :: _ :: _, hsplit, _ =>
      simp [requestsWithRefusedTwin] at hsplit
  ⟨h, by decide, by decide, by decide, by decide, by decide,
   types_distinct_of_accepted_payloads requestsWithRefusedTwin h⟩

/-! ## Create, then delete -/

theorem listingIndex_of_split (listingIdToDelete : Int) (pre : List Listing) (x : Listing)
    (post : List Listing) (hpre : ∀ y ∈ pre, y.ListingId ≠ listingIdToDelete)
    (hx : x.ListingId = listingIdToDelete) :
    listingIndex listingIdToDelete (pre ++ x :: post) = some pre.length := by
  induction pre with
  | nil => simp [listingIndex, hx]
  | cons y pre ih =>
    have hy : y.ListingId ≠ listingIdToDelete := hpre y (by simp)
    have hrest := ih (fun e he => hpre e (by simp [he]))
    simp [listingIndex, hy, hrest]

theorem deleteListing_of_split (s : Store) (id : Int) (pre : List Listing) (x : Listing)
    (post : List Listing) (hsplit : s.listings = pre ++ x :: post)
    (hpre : ∀ y ∈ pre, y.ListingId ≠ id) (hx : x.ListingId = id) :
    deleteListing s (some id) =
      ({ s with listings := pre ++ post }, jsonResponse 200 (Body.listings (pre ++ post))) := by
  have hidx : listingIndex id s.listings = some pre.length := by
    rw [hsplit]
    exact listingIndex_of_split id pre x post hpre hx
  have hcut : s.listings.take pre.length ++ s.listings.drop (pre.length + 1) = pre ++ post := by
    rw [hsplit]
    exact take_drop_split pre x post
  simp only [deleteListing, hidx, hcut]

theorem deleteListing_of_absent (s : Store) (id : Int)
    (h : ∀ l ∈ s.listings, l.ListingId ≠ id) :
    deleteListing s (some id) = (s, jsonResponse 200 (Body.listings s.listings)) := by
  simp only [deleteListing, listingIndex_eq_none id s.listings h]

theorem createListing_of_created (s : Store) (p : Listing)
    (h : (createListing s (some p)).2.status = 201) :
    (∀ x ∈ s.listings, x.ListingId ≠ p.ListingId) ∧
    createListing s (some p) =
      ({ s with listings := s.listings ++ [p] }, jsonResponse 201 (Body.listing p)) := by
  cases hfind : findValidCondo p.CondoId s.condos with
  | none =>
    rw [createListing_of_no_condo s p hfind] at h
    simp [httpError] at h
  | some c =>
    cases hty : validTypeId p.TypeId c.Types with
    | false =>
      rw [createListing_of_bad_type s p c hfind hty] at h
      simp [httpError] at h
    | true =>
      cases hdup : listingIdExists p.ListingId s.listings with
      | true =>
        rw [createListing_of_duplicate s p c hfind hty hdup] at h
        simp [httpError] at h
      | false =>
        refine ⟨?_, createListing_of_valid s p c hfind hty hdup⟩
        intro x hx hid
        have := (listingIdExists_eq_true_iff p.ListingId s.listings).mpr ⟨x, hx, hid⟩
        simp [hdup] at this

/-- C16: whenever `createListing` answers 201 for a payload, `deleteListing` with the
payload's listingId on the resulting store answers 200 and gives back the listings (and the
whole store) as they were before the create; on the seed store with listing 5 the create
answers 201 and leaves 5 listings, the delete answers 200 and leaves 4. -/
theorem createListing_deleteListing_roundtrip :
    (∀ (s : Store) (p : Listing), (createListing s (some p)).2.status = 201 →
      (deleteListing (createListing s (some p)).1 (some p.ListingId)).2.status = 200 ∧
      (deleteListing (createListing s (some p)).1 (some p.ListingId)).1.listings = s.listings ∧
      (deleteListing (createListing s (some p)).1 (some p.ListingId)).1 = s) ∧
    (createListing seedStore (some listingFive)).2.status = 201 ∧
    (createListing seedStore (some listingFive)).1.listings.length = 5 ∧
    (deleteListing (createListing seedStore (some listingFive)).1 (some 5)).2.status = 200 ∧
    (deleteListing (createListing seedStore (some listingFive)).1 (some 5)).1.listings.length = 4 := by
  refine ⟨?_, by decide, by decide, by decide, by decide⟩
  intro s p h
  obtain ⟨hfresh, hres⟩ := createListing_of_created s p h
  rw [hres]
  have hdel := deleteListing_of_split { s with listings := s.listings ++ [p] } p.ListingId
    s.listings p [] rfl hfresh rfl
  rw [hdel]
  simp [jsonResponse]

/-- Witness for C16: the round trip on the seed store with listing 5. -/
theorem createListing_deleteListing_roundtrip_witness :
    (createListing seedStore (some listingFive)).2.status = 201 ∧
    (deleteListing (createListing seedStore (some listingFive)).1
      (some listingFive.ListingId)).1 = seedStore :=
  ⟨by decide, (createListing_deleteListing_roundtrip.1 seedStore listingFive (by decide)).2.2⟩

/-! ## Deleting twice -/

/-- C17: in a store whose listingIds are pairwise distinct, after `deleteListing` with an
integer id no listing has that id and a second `deleteListing` with the same id leaves the
store as it is; every store reached from the seed has pairwise distinct listingIds; and in
a store where two listings share listingId 5 one of them is still there after the first
deletion. -/
theorem deleteListing_idempotent :
    (∀ (s : Store) (id : Int), s.listings.Pairwise (fun a b => a.ListingId ≠ b.ListingId) →
      (∀ l ∈ (deleteListing s (some id)).1.listings, l.ListingId ≠ id) ∧
      (deleteListing (deleteListing s (some id)).1 (some id)).1 = (deleteListing s (some id)).1) ∧
    (∀ rs : List Request,
      (run seedStore rs).listings.Pairwise (fun a b => a.ListingId ≠ b.ListingId)) ∧
    (storeRepeatedListing.listings.map (fun l => l.ListingId) = [5, 5] ∧
      ∃ l ∈ (deleteListing storeRepeatedListing (some 5)).1.listings, l.ListingId = 5) := by
  refine ⟨?_, fun rs => (run_uniqueIds seedStore rs seedStore_uniqueIds).2.2, by decide, by decide⟩
  intro s id hdistinct
  have hgone : ∀ l ∈ (deleteListing s (some id)).1.listings, l.ListingId ≠ id := by
    by_cases hmem : ∃ l ∈ s.listings, l.ListingId = id
    · obtain ⟨pre, x, post, hsplit, hpre, hx, _⟩ := listingIndex_of_mem id s.listings hmem
      rw [deleteListing_of_split s id pre x post hsplit hpre hx]
      rw [hsplit, List.pairwise_append, List.pairwise_cons] at hdistinct
      intro l hl
      rcases List.mem_append.mp hl with hl | hl
      · exact hpre l hl
      · intro hid
        exact hdistinct.2.1.1 l hl (hx.trans hid.symm)
    · have habsent : ∀ l ∈ s.listings, l.ListingId ≠ id := fun l hl hid => hmem ⟨l, hl, hid⟩
      rw [deleteListing_of_absent s id habsent]
      exact habsent
  exact ⟨hgone, by rw [deleteListing_of_absent (deleteListing s (some id)).1 id hgone]⟩

/-- Witness for C17: deleting listing 3 from the seed store, whose listingIds are distinct. -/
theorem deleteListing_idempotent_witness :
    seedStore.listings.Pairwise (fun a b => a.ListingId ≠ b.ListingId) ∧
    (∀ l ∈ (deleteListing seedStore (some 3)).1.listings, l.ListingId ≠ 3) ∧
    (deleteListing (deleteListing seedStore (some 3)).1 (some 3)).1 =
      (deleteListing seedStore (some 3)).1 :=
  ⟨seedStore_uniqueIds.2.2, deleteListing_idempotent.1 seedStore 3 seedStore_uniqueIds.2.2⟩

/-! ## Referential integrity -/

theorem seedStore_refIntegrity : RefIntegrity seedStore := by
  unfold RefIntegrity
  decide

theorem handle_refIntegrity (s : Store) (r : Request) (h : RefIntegrity s)
    (hr : isDeleteCondo r = false) : RefIntegrity (handle s r).1 := by
  cases r with
  | createCondo payload =>
    rcases createCondo_store s payload with hsame | ⟨p, _, _, hnew⟩
    · simp only [handle, hsame]
      exact h
    · simp only [handle, hnew]
      intro l hl
      obtain ⟨c, hc, hid, ht⟩ := h l hl
      exact ⟨c, List.mem_append.mpr (Or.inl hc), hid, ht⟩
  | deleteCondo condoIdParam => simp [isDeleteCondo] at hr
  | createListing payload =>
    rcases createListing_store s payload with hsame | ⟨p, c, _, hfirst, hty, _, hnew⟩
    · simp only [handle, hsame]
      exact h
    · simp only [handle, hnew]
      intro l hl
      rcases List.mem_append.mp hl with hl | hl
      · exact h l hl
      · rw [List.mem_singleton.mp hl]
        obtain ⟨pre, post, hsplit, _, hid⟩ := hfirst
        exact ⟨c, by simp [hsplit], hid, hty⟩
  | deleteListing idParam =>
    obtain ⟨hsub, hkeep⟩ := deleteListing_store s idParam
    intro l hl
    obtain ⟨c, hc, hid, ht⟩ := h l (hsub.subset hl)
    exact ⟨c, by simp only [handle, hkeep]; exact hc, hid, ht⟩

theorem run_refIntegrity (s : Store) (rs : List Request) (h : RefIntegrity s)
    (hr : ∀ r ∈ rs, isDeleteCondo r = false) : RefIntegrity (run s rs) := by
  induction rs generalizing s with
  | nil => exact h
  | cons r rest ih =>
    exact ih (handle s r).1 (handle_refIntegrity s r h (hr r (by simp)))
      (fun q hq => hr q (by simp [hq]))

/-- C18: in the seed store and in every store reached from it by requests none of which is
a `deleteCondo`, every listing's condoId is the condoId of a condo of the store and its
typeId is the typeId of one of that condo's room types; and after the single request that
deletes condo 1 from the seed store a listing remains whose condoId no condo has. -/
theorem referential_integrity_without_deleteCondo :
    (∀ rs : List Request, (∀ r ∈ rs, isDeleteCondo r = false) →
      ∀ l ∈ (run seedStore rs).listings, ∃ c ∈ (run seedStore rs).condos,
        c.CondoId = l.CondoId ∧ ∃ t ∈ c.Types, t.TypeId = l.TypeId) ∧
    (∃ l ∈ (run seedStore [Request.deleteCondo (some 1)]).listings,
      ∀ c ∈ (run seedStore [Request.deleteCondo (some 1)]).condos, c.CondoId ≠ l.CondoId) :=
  ⟨fun rs hr => run_refIntegrity seedStore rs seedStore_refIntegrity hr, by decide⟩

/-- Witness for C18: a request sequence without `deleteCondo` that adds condo 3, is refused
a listing with a type condo 3 lacks, adds listing 5 and deletes listing 3. -/
theorem referential_integrity_without_deleteCondo_witness :
    (∀ r ∈ requestsKeepingCondos, isDeleteCondo r = false) ∧
    (run seedStore requestsKeepingCondos).listings.map (fun l => l.ListingId) = [1, 2, 4, 5] ∧
    (∀ l ∈ (run seedStore requestsKeepingCondos).listings,
      ∃ c ∈ (run seedStore requestsKeepingCondos).condos,
        c.CondoId = l.CondoId ∧ ∃ t ∈ c.Types, t.TypeId = l.TypeId) :=
  ⟨by decide, by decide,
   referential_integrity_without_deleteCondo.1 requestsKeepingCondos (by decide)⟩

/-! ## Request gate -/

/-- C19: the gate runs the wrapped handler exactly when the value of the X-API-Key header
equals the configured key: with equal strings the outcome is the wrapped handler's, with
different strings it is 403 "Forbidden" with the store unchanged whatever the wrapped
handler is, and the outcome is the wrapped handler's for every handler only if the strings
are equal. -/
theorem apiKeyMiddleware_gate (apiKey key : String) (s : Store) :
    (key = apiKey → ∀ next : Store → Store × Response,
      apiKeyMiddleware apiKey next key s = next s) ∧
    (key ≠ apiKey → ∀ next : Store → Store × Response,
      apiKeyMiddleware apiKey next key s = (s, httpError "Forbidden" 403) ∧
      (apiKeyMiddleware apiKey next key s).2.status = 403 ∧
      (apiKeyMiddleware apiKey next key s).1 = s) ∧
    ((∀ next : Store → Store × Response, apiKeyMiddleware apiKey next key s = next s) ↔
      key = apiKey) := by
  have hpass : key = apiKey → ∀ next : Store → Store × Response,
      apiKeyMiddleware apiKey next key s = next s := by
    intro h next
    simp [apiKeyMiddleware, h]
  have hblock : key ≠ apiKey → ∀ next : Store → Store × Response,
      apiKeyMiddleware apiKey next key s = (s, httpError "Forbidden" 403) := by
    intro h next
    simp [apiKeyMiddleware, h]
  refine ⟨hpass, fun h next => ⟨hblock h next, by rw [hblock h next]; rfl, by rw [hblock h next]⟩,
    fun hall => ?_, hpass⟩
  by_contra hne
  have h1 := hall (fun st => (st, jsonResponse 200 Body.empty))
  rw [hblock hne] at h1
  have h2 := congrArg (fun r => r.2.status) h1
  simp [httpError, jsonResponse] at h2

/-- Witness for C19: with the configured key "secret", a request carrying "guess" gets 403
and leaves the seed store alone, and a request carrying "secret" reaches the wrapped
`createListing`, which answers 201. -/
theorem apiKeyMiddleware_gate_witness :
    (apiKeyMiddleware "secret" createListingFive "guess" seedStore).2.status = 403 ∧
    (apiKeyMiddleware "secret" createListingFive "guess" seedStore).1 = seedStore ∧
    apiKeyMiddleware "secret" createListingFive "secret" seedStore = createListingFive seedStore ∧
    (createListingFive seedStore).2.status = 201 :=
  ⟨((apiKeyMiddleware_gate "secret" "guess" seedStore).2.1 (by decide) createListingFive).2.1,
   ((apiKeyMiddleware_gate "secret" "guess" seedStore).2.1 (by decide) createListingFive).2.2,
   (apiKeyMiddleware_gate "secret" "secret" seedStore).1 rfl createListingFive,
   by decide⟩

end MvRealty
